import Mathlib

/-!
Verification of the plaso collection-extraction-storage pipeline core.

This file gives a shallow embedding, in Lean, of the queue, worker,
collector and preprocessing code of the repository and proves (or refutes)
the frozen specification claims about it.

Embedded sources:
 * `src/plaso/lib/queue.py` — `SingleThreadedQueue` and the queue consumers.
 * `src/lib/queue.py` — the legacy `SingleThreadedQueue` (deque based).
 * `src/plaso/engine/worker.py` — `EventExtractionWorker` (`_ParseEvent`,
   `ParseFile`).
 * `src/plaso/lib/worker.py` — `PlasoWorker.SmartOpenFiles` and
   `MAX_FILE_DEPTH`.
 * `src/plaso/collector/collector.py` — `Collector._ProcessVSS` and
   `FileSystemCollector._ProcessDirectory`.
 * `src/plaso/lib/engine.py` — `Engine.PreprocessSource`, together with
   `src/plaso/preprocessors/interface.py` — `PreprocessPlugin.Run`.
-/

namespace Plaso

/- ===================================================================
   Definitions: shallow embedding of the repository code
   =================================================================== -/

/-- The kinds of items that can be placed on a plaso queue.  The
`endOfInput` constructor models the `QueueEndOfInput` sentinel object
(src/plaso/lib/queue.py line 39); the others model the payload classes the
typed consumers check for with `isinstance` (dfvfs `PathSpec`,
`EventObject`, `AnalysisReport`, `ParseError`).  Payloads are abstracted
to a numeric identity. -/
inductive QueueItem where
  | endOfInput : QueueItem
  | pathSpec : Nat → QueueItem
  | eventObject : Nat → QueueItem
  | analysisReport : Nat → QueueItem
  | parseError : Nat → QueueItem
deriving DecidableEq, Repr

/-- `SingleThreadedQueue` (src/plaso/lib/queue.py lines 104-130): a plain
`collections.deque`, here a Lean list whose head is the left end of the
deque.  `PushItem` appends on the right, `PopItem` pops on the left. -/
structure SingleThreadedQueue (α : Type) where
  deq : List α
deriving DecidableEq, Repr

/-- `__len__` (line 112): the number of items inside the queue. -/
def SingleThreadedQueue.len (q : SingleThreadedQueue α) : Nat :=
  q.deq.length

/-- `IsEmpty` (lines 116-118): the source returns `len(self._queue)` — a
number, not a boolean. -/
def SingleThreadedQueue.IsEmpty (q : SingleThreadedQueue α) : Nat :=
  q.deq.length

/-- `PushItem` (lines 120-122): `self._queue.append(item)`. -/
def SingleThreadedQueue.PushItem (q : SingleThreadedQueue α) (item : α) :
    SingleThreadedQueue α :=
  ⟨q.deq ++ [item]⟩

/-- `PopItem` (lines 124-130): `self._queue.popleft()`, FIFO; raises
`errors.QueueEmpty` (here `none`) when the deque is empty. -/
def SingleThreadedQueue.PopItem (q : SingleThreadedQueue α) :
    Option (α × SingleThreadedQueue α) :=
  match q.deq with
  | [] => none
  | x :: rest => some (x, ⟨rest⟩)

/-- `Queue.SignalEndOfInput` (lines 62-64): pushes the end-of-input
sentinel. -/
def SingleThreadedQueue.SignalEndOfInput (q : SingleThreadedQueue QueueItem) :
    SingleThreadedQueue QueueItem :=
  q.PushItem QueueItem.endOfInput

/-- How a consumer loop of src/plaso/lib/queue.py exited. -/
inductive ConsumeExit where
  | queueEmpty : ConsumeExit
  | endOfInput : ConsumeExit
  | runtimeError : ConsumeExit
deriving DecidableEq, Repr

/-- The loop of `PathSpecQueueConsumer.ConsumePathSpecs`
(src/plaso/lib/queue.py lines 372-393) expressed on the deque contents:
pop an item; on `QueueEmpty` break; on the `QueueEndOfInput` sentinel push
the item back onto the queue (append on the right) and break; on an item
that is not a path specification raise `RuntimeError`; otherwise hand the
item to the `_ConsumePathSpec` callback and continue.  Returns the final
deque contents, the consumed payload identities in callback order, and
how the loop exited. -/
def consumePathSpecsLoop :
    List QueueItem → List QueueItem × List Nat × ConsumeExit
  | [] => ([], [], ConsumeExit.queueEmpty)
  | QueueItem.endOfInput :: rest =>
      (rest ++ [QueueItem.endOfInput], [], ConsumeExit.endOfInput)
  | QueueItem.pathSpec n :: rest =>
      let r := consumePathSpecsLoop rest
      (r.1, n :: r.2.1, r.2.2)
  | _ :: rest => (rest, [], ConsumeExit.runtimeError)

/-- `PathSpecQueueConsumer.ConsumePathSpecs` on a `SingleThreadedQueue`. -/
def SingleThreadedQueue.ConsumePathSpecs (q : SingleThreadedQueue QueueItem) :
    SingleThreadedQueue QueueItem × List Nat × ConsumeExit :=
  let r := consumePathSpecsLoop q.deq
  (⟨r.1⟩, r.2)

/-- The loop of `EventObjectQueueConsumer.ConsumeEventObjects` (lines
229-253): same loop, but with no `isinstance` check — every non-sentinel
item is handed to the `_ConsumeEventObject` callback (so consumed items
are returned whole here). -/
def consumeEventObjectsLoop :
    List QueueItem → List QueueItem × List QueueItem × ConsumeExit
  | [] => ([], [], ConsumeExit.queueEmpty)
  | QueueItem.endOfInput :: rest =>
      (rest ++ [QueueItem.endOfInput], [], ConsumeExit.endOfInput)
  | item :: rest =>
      let r := consumeEventObjectsLoop rest
      (r.1, item :: r.2.1, r.2.2)

/-- `EventObjectQueueConsumer.ConsumeEventObjects` on a queue. -/
def SingleThreadedQueue.ConsumeEventObjects
    (q : SingleThreadedQueue QueueItem) :
    SingleThreadedQueue QueueItem × List QueueItem × ConsumeExit :=
  let r := consumeEventObjectsLoop q.deq
  (⟨r.1⟩, r.2)

/-- The loop of `ItemQueueConsumer.ConsumeItems` (lines 296-310):
identical control flow to `ConsumeEventObjects`, callback `_ConsumeItem`,
no type check. -/
def consumeItemsLoop :
    List QueueItem → List QueueItem × List QueueItem × ConsumeExit
  | [] => ([], [], ConsumeExit.queueEmpty)
  | QueueItem.endOfInput :: rest =>
      (rest ++ [QueueItem.endOfInput], [], ConsumeExit.endOfInput)
  | item :: rest =>
      let r := consumeItemsLoop rest
      (r.1, item :: r.2.1, r.2.2)

/-- `ItemQueueConsumer.ConsumeItems` on a queue. -/
def SingleThreadedQueue.ConsumeItems (q : SingleThreadedQueue QueueItem) :
    SingleThreadedQueue QueueItem × List QueueItem × ConsumeExit :=
  let r := consumeItemsLoop q.deq
  (⟨r.1⟩, r.2)

/-- The loop of `ParseErrorQueueConsumer.ConsumeParseErrors` (lines
323-344): the loop with an `isinstance(item, event.ParseError)` check; a
wrong item type raises `RuntimeError`. -/
def consumeParseErrorsLoop :
    List QueueItem → List QueueItem × List Nat × ConsumeExit
  | [] => ([], [], ConsumeExit.queueEmpty)
  | QueueItem.endOfInput :: rest =>
      (rest ++ [QueueItem.endOfInput], [], ConsumeExit.endOfInput)
  | QueueItem.parseError n :: rest =>
      let r := consumeParseErrorsLoop rest
      (r.1, n :: r.2.1, r.2.2)
  | _ :: rest => (rest, [], ConsumeExit.runtimeError)

/-- `ParseErrorQueueConsumer.ConsumeParseErrors` on a queue. -/
def SingleThreadedQueue.ConsumeParseErrors
    (q : SingleThreadedQueue QueueItem) :
    SingleThreadedQueue QueueItem × List Nat × ConsumeExit :=
  let r := consumeParseErrorsLoop q.deq
  (⟨r.1⟩, r.2)

/-- The legacy `SingleThreadedQueue` (src/lib/queue.py lines 92-127): a
`collections.deque` plus a `closed` flag. -/
structure OldSingleThreadedQueue (α : Type) where
  deq : List α
  closed : Bool
deriving DecidableEq, Repr

/-- Legacy `Queue` method (lines 116-121): `self._queue.append(item)`
unless the queue is closed. -/
def OldSingleThreadedQueue.Queue (q : OldSingleThreadedQueue α) (item : α) :
    OldSingleThreadedQueue α :=
  if q.closed then q else ⟨q.deq ++ [item], q.closed⟩

/-- Legacy `AddEvent` (lines 123-125): delegates to `Queue`. -/
def OldSingleThreadedQueue.AddEvent (q : OldSingleThreadedQueue α)
    (item : α) : OldSingleThreadedQueue α :=
  q.Queue item

/-- The loop inside the legacy `PopItems` (src/lib/queue.py lines
102-107): repeatedly yield `self._queue.pop()` — `deque.pop()` removes
from the RIGHT end of the deque — until `IndexError` (the empty deque).
Returns the yielded items in yield order. -/
def popItemsLoop : List α → List α
  | [] => []
  | x :: xs =>
      (x :: xs).getLast (by simp) :: popItemsLoop (x :: xs).dropLast
termination_by l => l.length
decreasing_by
  simp only [List.length_dropLast, List.length_cons]
  omega

/-- Legacy `PopItems` (src/lib/queue.py lines 102-107). -/
def OldSingleThreadedQueue.PopItems (q : OldSingleThreadedQueue α) :
    List α :=
  popItemsLoop q.deq

/-- `dfvfs_definitions.TYPE_INDICATOR_OS`. -/
def TYPE_INDICATOR_OS : String := "OS"

/-- The slice of a dfvfs path specification the worker reads: the type
indicator, the optional `location` attribute and the `comparable` string
used in log messages. -/
structure DfvfsPathSpec where
  type_indicator : String
  location : Option String
  comparable : String
deriving DecidableEq, Repr

/-- The slice of a dfvfs file entry the worker reads: its `name`, its
`path_spec`, and the `ino` attribute of its stat object (absent when the
stat object has no `ino`). -/
structure FileEntry where
  name : String
  path_spec : DfvfsPathSpec
  stat_ino : Option Int
deriving DecidableEq, Repr

/-- `file_entry.GetStat()` restricted to the only stat attribute
`_ParseEvent` reads, `stat_obj.ino`. -/
def FileEntry.GetStat (fe : FileEntry) : Option Int := fe.stat_ino

/-- The attributes of an `EventObject` that `_ParseEvent` reads or
writes; `none` models an absent attribute. -/
structure EventObject where
  filename : Option String
  hostname : Option String
  inode : Option Int
  user_sid : Option String
  username : Option String
  display_name : Option String
  pathspec : Option DfvfsPathSpec
  parser : Option String
  text_prepend : Option String
deriving DecidableEq, Repr

/-- Python truthiness of an optional string attribute: `None` and the
empty string are falsy. -/
def strTruthy : Option String → Bool
  | none => false
  | some s => !s.isEmpty

/-- The third component of Python `s.partition(sep)`: the part of `s`
after the first occurrence of `sep`, or the empty string when `sep` does
not occur. -/
def pyPartitionTail (s sep : String) : String :=
  match s.splitOn sep with
  | [] => ""
  | [_] => ""
  | _ :: rest => String.intercalate sep rest

/-- Modelled from the spec: `utils.GetInodeValue` — `src/plaso/lib/`
contains no `utils.py`, only callers.  The spec only requires that the
inode be "set ... from the file entry's stat information if absent", so
the stat value is passed through. -/
def GetInodeValue (inode : Int) : Int := inode

/-- The state of an `EventExtractionWorker`
(src/plaso/engine/worker.py): the configuration attributes `_ParseEvent`
and `ParseFile` read, plus the observable effects (events handed to the
storage queue producer, the extracted-events counter, the
currently-processed file).  `pre_obj_hostname` is the `hostname`
attribute of `self._pre_obj` (`none` when `hasattr` is false);
`filter_object` is `self._filter_object`, carrying its `Matches`
predicate. -/
structure EventExtractionWorker where
  text_prepend : Option String
  mount_path : Option String
  pre_obj_hostname : Option String
  user_mapping : List (String × String)
  filter_object : Option (EventObject → Bool)
  storage_queue : List EventObject
  counter_of_extracted_events : Nat
  current_working_file : String

/-- The event-mutation part of `EventExtractionWorker._ParseEvent`
(src/plaso/engine/worker.py lines 116-158), line by line:
text-prepend, mount-relative file path, display name, filename (only if
not already truthy), pathspec, parser name, hostname (whenever the
preprocess object has one), inode (only if absent and the stat object has
`ino`), and username resolution via the user mapping. -/
def EventExtractionWorker.EnrichEvent (w : EventExtractionWorker)
    (event_object : EventObject) (file_entry : FileEntry)
    (parser_name : String) (stat_ino : Option Int) : EventObject :=
  let e := event_object
  let tp := if strTruthy w.text_prepend then w.text_prepend
      else e.text_prepend
  let e := { e with text_prepend := tp }
  let file_path := match file_entry.path_spec.location with
    | some location => location
    | none => file_entry.name
  let file_path :=
    if (file_entry.path_spec.type_indicator == TYPE_INDICATOR_OS) &&
        strTruthy w.mount_path then
      pyPartitionTail file_path (w.mount_path.getD "")
    else file_path
  let dn := some (file_entry.path_spec.type_indicator ++ ":" ++ file_path)
  let e := { e with display_name := dn }
  let fn := if strTruthy e.filename then e.filename else some file_path
  let e := { e with filename := fn }
  let e := { e with pathspec := some file_entry.path_spec }
  let e := { e with parser := some parser_name }
  let hn := match w.pre_obj_hostname with
    | some hostname => some hostname
    | none => e.hostname
  let e := { e with hostname := hn }
  let ino := match e.inode, stat_ino with
    | none, some i => some (GetInodeValue i)
    | _, _ => e.inode
  let e := { e with inode := ino }
  let un := if strTruthy e.user_sid && !w.user_mapping.isEmpty then
      match w.user_mapping.lookup (e.user_sid.getD "") with
      | some username =>
          if username.isEmpty then e.username else some username
      | none => e.username
    else e.username
  let e := { e with username := un }
  e

/-- The push condition of `_ParseEvent` (line 160):
`not self._filter_object or self._filter_object.Matches(event_object)`. -/
def EventExtractionWorker.passesFilter (w : EventExtractionWorker)
    (e : EventObject) : Bool :=
  match w.filter_object with
  | none => true
  | some Matches => Matches e

/-- `EventExtractionWorker._ParseEvent` (lines 116-162): enrich the
event, then, when there is no filter or the filter's `Matches` returns
true, hand the event to the storage queue producer and increment the
extracted-events counter.  Returns the updated worker state and the
enriched event. -/
def EventExtractionWorker.ParseEvent (w : EventExtractionWorker)
    (event_object : EventObject) (file_entry : FileEntry)
    (parser_name : String) (stat_ino : Option Int) :
    EventExtractionWorker × EventObject :=
  let e := w.EnrichEvent event_object file_entry parser_name stat_ino
  if w.passesFilter e then
    ({ w with
        storage_queue := w.storage_queue ++ [e],
        counter_of_extracted_events := w.counter_of_extracted_events + 1 },
      e)
  else (w, e)

/-- Log levels of the Python `logging` calls in the worker. -/
inductive LogLevel where
  | debug : LogLevel
  | info : LogLevel
  | warning : LogLevel
  | errorLevel : LogLevel
deriving DecidableEq, Repr

/-- One log call: its level, the parser name it mentions (if any) and the
file name or path it mentions (if any). -/
structure LogRecord where
  level : LogLevel
  plugin : Option String
  file_ref : Option String
deriving DecidableEq, Repr

/-- The exceptions the `ParseFile` loop body distinguishes:
`errors.UnableToParseFile` (format mismatch), `IOError`, and the
catch-all `Exception` (an arbitrary parser bug). -/
inductive ParserExn where
  | unableToParseFile : ParserExn
  | ioError : ParserExn
  | otherException : ParserExn
deriving DecidableEq, Repr

/-- A parser object as the worker sees it: its `parser_name`, the values
its `Parse` generator yields for a file before the iteration ends
(`None`-like yields are skipped by the worker: `if not event_object:
continue`), and the exception, if any, that ends the iteration. -/
structure ParserObject where
  parser_name : String
  ParseYields : FileEntry → List (Option EventObject)
  ParseRaises : FileEntry → Option ParserExn

/-- One step of the event loop inside `ParseFile` (lines 188-193):
skip falsy yields, otherwise run `_ParseEvent`. -/
def eventStep (file_entry : FileEntry) (parser_name : String)
    (stat_ino : Option Int) (wacc : EventExtractionWorker)
    (oe : Option EventObject) : EventExtractionWorker :=
  match oe with
  | none => wacc
  | some event_object =>
      (wacc.ParseEvent event_object file_entry parser_name stat_ino).1

/-- The log records produced by one iteration of the parser loop in
`ParseFile` (lines 185-216): the "Checking [...] against" debug line,
then — per the `except` clauses — a debug line for
`UnableToParseFile` (mentioning parser name and file name), a debug line
for `IOError` (parser name and path), or a warning plus a debug line for
any other exception (the warning mentioning parser name and path). -/
def parserLogs (file_entry : FileEntry) (p : ParserObject) :
    List LogRecord :=
  LogRecord.mk LogLevel.debug (some p.parser_name) (some file_entry.name) ::
    (match p.ParseRaises file_entry with
     | none => []
     | some ParserExn.unableToParseFile =>
         [LogRecord.mk LogLevel.debug (some p.parser_name)
           (some file_entry.name)]
     | some ParserExn.ioError =>
         [LogRecord.mk LogLevel.debug (some p.parser_name)
           (some file_entry.path_spec.comparable)]
     | some ParserExn.otherException =>
         [LogRecord.mk LogLevel.warning (some p.parser_name)
           (some file_entry.path_spec.comparable),
          LogRecord.mk LogLevel.debug none
           (some file_entry.path_spec.comparable)])

/-- One iteration of the parser loop of `ParseFile` (lines 184-221): run
the parser's yielded events through `_ParseEvent`; every exception from
the parser is caught here and only logged, so the loop always continues
with the next parser. -/
def parserStep (file_entry : FileEntry) (stat_ino : Option Int)
    (acc : EventExtractionWorker × List LogRecord) (p : ParserObject) :
    EventExtractionWorker × List LogRecord :=
  let w1 := (p.ParseYields file_entry).foldl
    (eventStep file_entry p.parser_name stat_ino) acc.1
  (w1, acc.2 ++ parserLogs file_entry p)

/-- `EventExtractionWorker.ParseFile` (lines 164-224): record the
currently-processed file, take the stat object once, then run every
registered parser (`self._parsers['all']`) against the file, isolating
each parser's exceptions.  The enclosing "[ParseFile] Parsing"/"Done
parsing" debug lines, which mention no parser, are elided.  Returns the
final worker state and the log records of the parser loop. -/
def EventExtractionWorker.ParseFile (w : EventExtractionWorker)
    (parsers : List ParserObject) (file_entry : FileEntry) :
    EventExtractionWorker × List LogRecord :=
  let cwf := match file_entry.path_spec.location with
    | some location => location
    | none => file_entry.name
  let w := { w with current_working_file := cwf }
  let stat_ino := file_entry.GetStat
  parsers.foldl (parserStep file_entry stat_ino) (w, [])

/-- The worker loop over several files (the per-item part of
`_ConsumePathSpec` applied to each successfully resolved file entry in
turn). -/
def EventExtractionWorker.ProcessFiles (w : EventExtractionWorker)
    (parsers : List ParserObject) (files : List FileEntry) :
    EventExtractionWorker × List LogRecord :=
  files.foldl (fun acc file_entry =>
    let r := EventExtractionWorker.ParseFile acc.1 parsers file_entry
    (r.1, acc.2 ++ r.2)) (w, [])

/-- The events a single parser contributes to the storage queue when the
worker state `w` processes `file_entry`: each truthy yielded event,
enriched, kept when the filter passes it. -/
def acceptedEvents (w : EventExtractionWorker) (file_entry : FileEntry)
    (parser_name : String) (stat_ino : Option Int)
    (evts : List (Option EventObject)) : List EventObject :=
  evts.filterMap fun oe =>
    match oe with
    | none => none
    | some e =>
        let enriched := w.EnrichEvent e file_entry parser_name stat_ino
        if w.passesFilter enriched then some enriched else none

/-- All storage-queue contributions of a parser list on one file. -/
def parsersAccepted (w : EventExtractionWorker) (file_entry : FileEntry)
    (stat_ino : Option Int) (parsers : List ParserObject) :
    List EventObject :=
  (parsers.map fun p =>
    acceptedEvents w file_entry p.parser_name stat_ino
      (p.ParseYields file_entry)).flatten

/-- `getattr(file_entry.path_spec, 'location', file_entry.name)` as used
for the currently-processed file. -/
def workingFileOf (file_entry : FileEntry) : String :=
  match file_entry.path_spec.location with
  | some location => location
  | none => file_entry.name

/-- A filter object whose `Matches` returns true for every event. -/
def filterAlwaysTrue : EventObject → Bool := fun _ => true

/-- A filter object whose `Matches` returns false for every event. -/
def filterAlwaysFalse : EventObject → Bool := fun _ => false

/-- A sample path specification. -/
def cPathSpec : DfvfsPathSpec :=
  ⟨"TSK", some "/a.log", "type: TSK, location: /a.log"⟩

/-- A sample file entry. -/
def cFile : FileEntry := ⟨"a.log", cPathSpec, some 5⟩

/-- An event object with no attributes set. -/
def cEvent : EventObject :=
  ⟨none, none, none, none, none, none, none, none, none⟩

/-- An event object whose producing plugin already set a hostname. -/
def cEventHost : EventObject :=
  ⟨none, some "plugin-host", none, none, none, none, none, none, none⟩

/-- A worker with no filter configured. -/
def cWorkerNoFilter : EventExtractionWorker :=
  ⟨none, none, none, [], none, [], 0, ""⟩

/-- A worker whose configured filter matches every event. -/
def cWorkerFilter : EventExtractionWorker :=
  ⟨none, none, none, [], some filterAlwaysTrue, [], 0, ""⟩

/-- A worker whose configured filter matches no event. -/
def cWorkerFilterF : EventExtractionWorker :=
  ⟨none, none, none, [], some filterAlwaysFalse, [], 0, ""⟩

/-- A worker whose preprocess object carries a hostname. -/
def cWorkerHost : EventExtractionWorker :=
  ⟨none, none, some "kb-host", [], none, [], 0, ""⟩

/-- A parser plugin that always raises an arbitrary exception. -/
def cParserBug : ParserObject :=
  ⟨"bugplugin", fun _ => [], fun _ => some ParserExn.otherException⟩

/-- A parser plugin that always signals a format mismatch. -/
def cParserMismatch : ParserObject :=
  ⟨"sqlite", fun _ => [], fun _ => some ParserExn.unableToParseFile⟩

/-- A parser plugin that yields one event and raises nothing. -/
def cParserOk : ParserObject :=
  ⟨"filestat", fun _ => [some cEvent], fun _ => none⟩

/-- `PlasoWorker.MAX_FILE_DEPTH` (src/plaso/lib/worker.py line 78). -/
def MAX_FILE_DEPTH : Nat := 3

/-- `PlasoWorker.SmartOpenFiles` (src/plaso/lib/worker.py lines 295-325),
parameterized over its collaborators: `SmartOpenFile` yields the nested
path specifications extracted from a file entry (lines 327-453) and
`OpenPFileEntry` opens one (`none` models the caught `IOError`, on which
the loop logs, continues, and does not recurse into that child).  When
`depth >= MAX_FILE_DEPTH` nothing is yielded (line 309); otherwise each
opened child is yielded followed by its own recursive expansion at
`depth + 1` (lines 312-325). -/
def SmartOpenFiles {α β : Type} (SmartOpenFile : α → List β)
    (OpenPFileEntry : β → Option α) (file_entry : α) (depth : Nat) :
    List α :=
  if h : MAX_FILE_DEPTH ≤ depth then []
  else
    ((SmartOpenFile file_entry).map fun pathspec =>
      match OpenPFileEntry pathspec with
      | none => []
      | some new_file_entry =>
          new_file_entry ::
            SmartOpenFiles SmartOpenFile OpenPFileEntry new_file_entry
              (depth + 1)).flatten
termination_by MAX_FILE_DEPTH - depth
decreasing_by
  simp only [not_le] at h
  omega

/-- Upper bound on the number of file entries an expansion with the given
branching factor can yield in `n` remaining depth levels. -/
def expansionBound (branching : Nat) : Nat → Nat
  | 0 => 0
  | n + 1 => branching * (1 + expansionBound branching n)

/-- What happens when the VSS loop body handles one snapshot store:
`openFail` models `Resolver.OpenFileSystem` (line 192) raising — that
call is OUTSIDE any try/except; `walkFail` models
`self._fs_collector.Collect` raising `AccessError`/`BackEndError`
(caught at line 198); `ok items` is a successful walk producing the given
path-specification identities. -/
inductive StoreResult where
  | openFail : StoreResult
  | walkFail : StoreResult
  | ok : List Nat → StoreResult
deriving DecidableEq, Repr

/-- Whether the store walk succeeds. -/
def StoreResult.isOk : StoreResult → Bool
  | StoreResult.ok _ => true
  | _ => false

/-- How `_ProcessVSS` ended: normally, via the `return` in the `except`
clause (line 208), or by an uncaught exception propagating out. -/
inductive VssExit where
  | completed : VssExit
  | abandoned : VssExit
  | raised : VssExit
deriving DecidableEq, Repr

/-- Observable outcome of the `_ProcessVSS` store loop: the 0-based store
indices actually walked (passed as `store_index` to the vshadow path
specification, line 186), the 1-based indices shown in the "Collecting
from VSS volume" log lines (`store_index + 1`, lines 180/183), the
produced path specifications, and how the loop ended. -/
structure VssRun where
  walked : List Int
  displayed : List Int
  produced : List Nat
  exit : VssExit
deriving DecidableEq, Repr

/-- The store loop of `Collector._ProcessVSS` (src/plaso/collector/
collector.py lines 176-216): for each store index, log the 1-based index,
open the store's file system (an open failure propagates uncaught), then
walk it with `self._fs_collector.Collect`; a walk failure logs a warning
and `return`s — abandoning every remaining store; a success accumulates
and continues. -/
def ProcessVSSLoop (store : Int → StoreResult) : List Int → VssRun
  | [] => ⟨[], [], [], VssExit.completed⟩
  | store_index :: rest =>
    match store store_index with
    | StoreResult.openFail =>
        ⟨[], [store_index + 1], [], VssExit.raised⟩
    | StoreResult.walkFail =>
        ⟨[store_index], [store_index + 1], [], VssExit.abandoned⟩
    | StoreResult.ok items =>
        let r := ProcessVSSLoop store rest
        ⟨store_index :: r.walked, (store_index + 1) :: r.displayed,
          items ++ r.produced, r.exit⟩

/-- The store-range computation of `_ProcessVSS` (lines 169-174): when
`self._vss_stores` is truthy (a non-empty list), 1 is subtracted from
each externally 1-based index; otherwise `range(0, number_of_vss)` is
used. -/
def vssStoreRange (vss_stores : Option (List Int))
    (number_of_vss : Nat) : List Int :=
  match vss_stores with
  | some (store_nr :: rest) =>
      (store_nr :: rest).map (fun store_nr => store_nr - 1)
  | some [] => (List.range number_of_vss).map Int.ofNat
  | none => (List.range number_of_vss).map Int.ofNat

/-- `Collector._ProcessVSS` (lines 150-216): compute the store range and
run the store loop. -/
def ProcessVSS (store : Int → StoreResult)
    (vss_stores : Option (List Int)) (number_of_vss : Nat) : VssRun :=
  ProcessVSSLoop store (vssStoreRange vss_stores number_of_vss)

/-- The `Collect → _ProcessImage → _ProcessVSS → SignalEndOfInput` chain
(lines 130-148 and 218-257) for an image source whose primary walk
succeeded: `_ProcessImage` calls `_ProcessVSS` with no try/except, and
`Collect` signals end-of-input (line 257) afterwards — unless an
exception propagated out of the VSS loop.  Returns the VSS outcome and
whether `SignalEndOfInput` was reached. -/
def CollectImageVss (store : Int → StoreResult)
    (vss_stores : Option (List Int)) (number_of_vss : Nat) :
    VssRun × Bool :=
  let r := ProcessVSS store vss_stores number_of_vss
  match r.exit with
  | VssExit.raised => (r, false)
  | _ => (r, true)

/-- A file-system entry as `FileSystemCollector._ProcessDirectory` sees
it: a file (identity, `IsAllocated()`, `IsLink()`), an entry whose
allocation check raises `BackEndError` (caught per entry, lines
349-357), or a directory (`IsAllocated()`, `IsLink()`, whether walking
its own sub-entries raises, and its sub-entries).  The `$OrphanFiles`
skip, the deduplication check and the directory-metadata container event
are outside the scope of the modelled claims and are omitted. -/
inductive FSEntry where
  | file : Nat → Bool → Bool → FSEntry
  | statFail : Nat → FSEntry
  | dir : Bool → Bool → Bool → List FSEntry → FSEntry

/-- The file-producing first pass of `_ProcessDirectory` (lines 348-389):
per sub-entry, skip it when the allocation check raises or when it is
unallocated or a link; produce the path specification of each remaining
file. -/
def directFileIds : List FSEntry → List Nat
  | [] => []
  | FSEntry.file id allocated isLink :: rest =>
      if allocated && !isLink then id :: directFileIds rest
      else directFileIds rest
  | FSEntry.statFail _ :: rest => directFileIds rest
  | FSEntry.dir _ _ _ _ :: rest => directFileIds rest

/-- The warnings logged during the first pass: one per sub-entry whose
allocation check raises `BackEndError` (lines 352-357). -/
def statWarnings : List FSEntry → Nat
  | [] => 0
  | FSEntry.statFail _ :: rest => statWarnings rest + 1
  | _ :: rest => statWarnings rest

mutual

/-- `FileSystemCollector._ProcessDirectory` (lines 342-395): first pass
over the sub-entries producing file path specifications and collecting
the sub-directories, then a second pass recursing into each
sub-directory, catching `AccessError`/`BackEndError` per sub-directory
(lines 391-395).  `Except.error` models this directory's own sub-entry
iteration raising.  Returns the produced path-specification identities
and the number of warnings logged. -/
def ProcessDirectory : FSEntry → Except Unit (List Nat × Nat)
  | FSEntry.file _ _ _ => Except.ok ([], 0)
  | FSEntry.statFail _ => Except.ok ([], 0)
  | FSEntry.dir _ _ walkFails subs =>
      if walkFails then Except.error ()
      else
        let r := ProcessSubDirectories subs
        Except.ok (directFileIds subs ++ r.1, statWarnings subs + r.2)

/-- The second pass of `_ProcessDirectory` (lines 391-395): recurse into
each (allocated, non-link) sub-directory in order; a failure of one
sub-directory logs a warning and continues with the next. -/
def ProcessSubDirectories : List FSEntry → List Nat × Nat
  | [] => ([], 0)
  | e :: rest =>
      let hd : List Nat × Nat :=
        match e with
        | FSEntry.dir allocated isLink _ _ =>
            if allocated && !isLink then
              match ProcessDirectory e with
              | Except.ok r => r
              | Except.error _ => ([], 1)
            else ([], 0)
        | _ => ([], 0)
      let tl := ProcessSubDirectories rest
      (hd.1 ++ tl.1, hd.2 + tl.2)

end

/-- A snapshot-store walk that fails on store 0 and would succeed on any
other store. -/
def cStoreFail : Int → StoreResult :=
  fun i => if i = 0 then StoreResult.walkFail else StoreResult.ok [42]

/-- A snapshot-store walk that succeeds on every store. -/
def cStoreOk : Int → StoreResult := fun _ => StoreResult.ok [7]

/-- A directory whose own walk raises, containing one file. -/
def cDirFail : FSEntry :=
  FSEntry.dir true false true [FSEntry.file 3 true false]

/-- A healthy directory containing one file. -/
def cDirGood : FSEntry :=
  FSEntry.dir true false false [FSEntry.file 9 true false]

/-- The exceptions `Engine.PreprocessSource` catches around
`plugin.Run` (src/plaso/lib/engine.py lines 192-197): `IOError` and
`errors.PreProcessFail`. -/
inductive PreErr where
  | ioError : PreErr
  | preProcessFail : PreErr
deriving DecidableEq, Repr

/-- Modelled from the spec: the KnowledgeBase attribute store (the
KnowledgeBase class itself is not under src/, only its `SetValue` /
`GetValue` call sites); it "holds ... arbitrary named attributes
contributed by plugins", one value per attribute name, here an
association list with the most recent setting first. -/
abbrev KnowledgeBase : Type := List (String × String)

/-- Modelled from the spec: `KnowledgeBase.SetValue` stores the value
under the plugin's declared attribute name. -/
def KnowledgeBase.SetValue (kb : KnowledgeBase)
    (attr_name value : String) : KnowledgeBase :=
  (attr_name, value) :: kb

/-- Modelled from the spec: `KnowledgeBase.GetValue` returns the stored
value of an attribute, or nothing when the attribute was never set. -/
def KnowledgeBase.GetValue : KnowledgeBase → String → Option String
  | [], _ => none
  | (k, v) :: rest, attr_name =>
      if attr_name = k then some v
      else KnowledgeBase.GetValue rest attr_name

/-- A preprocess plugin as the scheduler sees it: `plugin_name`, the
declared `ATTRIBUTE`, and `GetValue`, which may raise. -/
structure PreprocessPlugin where
  plugin_name : String
  ATTRIBUTE : String
  GetValue : KnowledgeBase → Except PreErr String

/-- `PreprocessPlugin.Run` (src/plaso/preprocessors/interface.py lines
125-139): `value = self.GetValue(...)` then
`knowledge_base.SetValue(self.ATTRIBUTE, value)` — the attribute is
written only after `GetValue` returns; a raising `GetValue` leaves the
knowledge base untouched. -/
def PreprocessPlugin.Run (p : PreprocessPlugin) (kb : KnowledgeBase) :
    Except PreErr KnowledgeBase :=
  match p.GetValue kb with
  | Except.error e => Except.error e
  | Except.ok value => Except.ok (kb.SetValue p.ATTRIBUTE value)

/-- The inner loop of `Engine.PreprocessSource` (src/plaso/lib/engine.py
lines 190-197) over the plugins of one weight class: `try:
plugin.Run(...)`; on `IOError` or `errors.PreProcessFail` log a warning
(recorded as the pair of plugin name and attribute) and continue with
the next plugin. -/
def runPluginGroup (kb : KnowledgeBase)
    (warnings : List (String × String)) :
    List PreprocessPlugin → KnowledgeBase × List (String × String)
  | [] => (kb, warnings)
  | plugin :: rest =>
    match plugin.Run kb with
    | Except.ok kb2 => runPluginGroup kb2 warnings rest
    | Except.error _ =>
        runPluginGroup kb
          (warnings ++ [(plugin.plugin_name, plugin.ATTRIBUTE)]) rest

/-- The outer loop of `Engine.PreprocessSource` (lines 189-197): one
weight class after the other. -/
def PreprocessSourceLoop (kb : KnowledgeBase)
    (warnings : List (String × String)) :
    List (List PreprocessPlugin) →
      KnowledgeBase × List (String × String)
  | [] => (kb, warnings)
  | group :: rest =>
      let r := runPluginGroup kb warnings group
      PreprocessSourceLoop r.1 r.2 rest

/-- `Engine.PreprocessSource` (lines 175-197) restricted to the plugin
execution loops, over the weight-grouped plugin list for the guessed
platform. -/
def PreprocessSource (kb : KnowledgeBase)
    (groups : List (List PreprocessPlugin)) :
    KnowledgeBase × List (String × String) :=
  PreprocessSourceLoop kb [] groups

/-- A preprocess plugin whose `GetValue` always raises. -/
def cPluginFail : PreprocessPlugin :=
  ⟨"WinVersion", "osversion", fun _ => Except.error PreErr.preProcessFail⟩

/-- A preprocess plugin that always succeeds. -/
def cPluginOk : PreprocessPlugin :=
  ⟨"HostName", "hostname", fun _ => Except.ok "ACME-PC"⟩

/- ===================================================================
   Theorems
   =================================================================== -/

theorem popItemsLoop_reverse (l : List α) : popItemsLoop l = l.reverse := by
  generalize hn : l.length = n
  induction n generalizing l with
  | zero =>
      cases l with
      | nil => simp [popItemsLoop]
      | cons x xs => simp at hn
  | succ n ih =>
      cases l with
      | nil => simp at hn
      | cons x xs =>
          have hlen : (x :: xs).dropLast.length = n := by
            rw [List.length_dropLast]
            simp only [List.length_cons] at hn ⊢
            omega
          simp only [popItemsLoop]
          rw [ih _ hlen]
          have hsplit : (x :: xs).dropLast ++ [(x :: xs).getLast (by simp)] =
              x :: xs := List.dropLast_concat_getLast (by simp)
          conv_rhs => rw [← hsplit]
          simp

theorem consumePathSpecsLoop_sentinel (l : List QueueItem) :
    (consumePathSpecsLoop l).2.2 = ConsumeExit.endOfInput →
      QueueItem.endOfInput ∈ (consumePathSpecsLoop l).1 := by
  induction l with
  | nil => intro h; simp [consumePathSpecsLoop] at h
  | cons x xs ih =>
      cases x with
      | endOfInput => intro _; simp [consumePathSpecsLoop]
      | pathSpec n =>
          intro h
          simp only [consumePathSpecsLoop] at h ⊢
          exact ih h
      | eventObject n => intro h; simp [consumePathSpecsLoop] at h
      | analysisReport n => intro h; simp [consumePathSpecsLoop] at h
      | parseError n => intro h; simp [consumePathSpecsLoop] at h

theorem consumeEventObjectsLoop_sentinel (l : List QueueItem) :
    (consumeEventObjectsLoop l).2.2 = ConsumeExit.endOfInput →
      QueueItem.endOfInput ∈ (consumeEventObjectsLoop l).1 := by
  induction l with
  | nil => intro h; simp [consumeEventObjectsLoop] at h
  | cons x xs ih =>
      cases x with
      | endOfInput => intro _; simp [consumeEventObjectsLoop]
      | pathSpec n =>
          intro h
          simp only [consumeEventObjectsLoop] at h ⊢
          exact ih h
      | eventObject n =>
          intro h
          simp only [consumeEventObjectsLoop] at h ⊢
          exact ih h
      | analysisReport n =>
          intro h
          simp only [consumeEventObjectsLoop] at h ⊢
          exact ih h
      | parseError n =>
          intro h
          simp only [consumeEventObjectsLoop] at h ⊢
          exact ih h

theorem consumeItemsLoop_sentinel (l : List QueueItem) :
    (consumeItemsLoop l).2.2 = ConsumeExit.endOfInput →
      QueueItem.endOfInput ∈ (consumeItemsLoop l).1 := by
  induction l with
  | nil => intro h; simp [consumeItemsLoop] at h
  | cons x xs ih =>
      cases x with
      | endOfInput => intro _; simp [consumeItemsLoop]
      | pathSpec n =>
          intro h
          simp only [consumeItemsLoop] at h ⊢
          exact ih h
      | eventObject n =>
          intro h
          simp only [consumeItemsLoop] at h ⊢
          exact ih h
      | analysisReport n =>
          intro h
          simp only [consumeItemsLoop] at h ⊢
          exact ih h
      | parseError n =>
          intro h
          simp only [consumeItemsLoop] at h ⊢
          exact ih h

theorem consumeParseErrorsLoop_sentinel (l : List QueueItem) :
    (consumeParseErrorsLoop l).2.2 = ConsumeExit.endOfInput →
      QueueItem.endOfInput ∈ (consumeParseErrorsLoop l).1 := by
  induction l with
  | nil => intro h; simp [consumeParseErrorsLoop] at h
  | cons x xs ih =>
      cases x with
      | endOfInput => intro _; simp [consumeParseErrorsLoop]
      | pathSpec n => intro h; simp [consumeParseErrorsLoop] at h
      | eventObject n => intro h; simp [consumeParseErrorsLoop] at h
      | analysisReport n => intro h; simp [consumeParseErrorsLoop] at h
      | parseError n =>
          intro h
          simp only [consumeParseErrorsLoop] at h ⊢
          exact ih h

/-- C1: for each of the four consumer loops sharing a queue (path-spec,
event-object, item, and parse-error consumers), whenever the loop exits
because `PopItem` returned the `EndOfInput` sentinel, the sentinel has
been pushed back and is present on the final queue, so every other
consumer sharing the queue can still observe it. -/
theorem claim_C1_sentinel_requeued :
    (∀ q : SingleThreadedQueue QueueItem,
       (q.ConsumePathSpecs).2.2 = ConsumeExit.endOfInput →
         QueueItem.endOfInput ∈ (q.ConsumePathSpecs).1.deq) ∧
    (∀ q : SingleThreadedQueue QueueItem,
       (q.ConsumeEventObjects).2.2 = ConsumeExit.endOfInput →
         QueueItem.endOfInput ∈ (q.ConsumeEventObjects).1.deq) ∧
    (∀ q : SingleThreadedQueue QueueItem,
       (q.ConsumeItems).2.2 = ConsumeExit.endOfInput →
         QueueItem.endOfInput ∈ (q.ConsumeItems).1.deq) ∧
    (∀ q : SingleThreadedQueue QueueItem,
       (q.ConsumeParseErrors).2.2 = ConsumeExit.endOfInput →
         QueueItem.endOfInput ∈ (q.ConsumeParseErrors).1.deq) :=
  ⟨fun q => consumePathSpecsLoop_sentinel q.deq,
   fun q => consumeEventObjectsLoop_sentinel q.deq,
   fun q => consumeItemsLoop_sentinel q.deq,
   fun q => consumeParseErrorsLoop_sentinel q.deq⟩

/-- C1 witness: a concrete queue holding one payload item followed by the
sentinel; each consumer loop exits on the sentinel and the sentinel is on
the final queue. -/
theorem claim_C1_witness :
    (QueueItem.endOfInput ∈
      ((⟨[QueueItem.pathSpec 7, QueueItem.endOfInput]⟩ :
        SingleThreadedQueue QueueItem).ConsumePathSpecs).1.deq) ∧
    (QueueItem.endOfInput ∈
      ((⟨[QueueItem.eventObject 7, QueueItem.endOfInput]⟩ :
        SingleThreadedQueue QueueItem).ConsumeEventObjects).1.deq) ∧
    (QueueItem.endOfInput ∈
      ((⟨[QueueItem.eventObject 7, QueueItem.endOfInput]⟩ :
        SingleThreadedQueue QueueItem).ConsumeItems).1.deq) ∧
    (QueueItem.endOfInput ∈
      ((⟨[QueueItem.parseError 7, QueueItem.endOfInput]⟩ :
        SingleThreadedQueue QueueItem).ConsumeParseErrors).1.deq) :=
  ⟨claim_C1_sentinel_requeued.1 _ (by decide),
   claim_C1_sentinel_requeued.2.1 _ (by decide),
   claim_C1_sentinel_requeued.2.2.1 _ (by decide),
   claim_C1_sentinel_requeued.2.2.2 _ (by decide)⟩

/-- C4 (code-bug evidence): the current `SingleThreadedQueue`
(src/plaso/lib/queue.py) is FIFO — after pushing `a,b,c` onto an empty
queue, three successive `PopItem` calls yield `a`, then `b`, then `c` —
but the legacy `SingleThreadedQueue.PopItems` (src/lib/queue.py) pops
with `deque.pop()` from the right end, so after queueing `a,b,c` it
yields `c,b,a`: LIFO, violating the claimed FIFO contract that the
successor implementation documents ("Using popleft to have FIFO
behavior"). -/
theorem claim_C4_popitems_lifo_bug :
    (((((⟨[]⟩ : SingleThreadedQueue String).PushItem "a").PushItem
        "b").PushItem "c").PopItem =
      some ("a", ⟨["b", "c"]⟩) ∧
     (⟨["b", "c"]⟩ : SingleThreadedQueue String).PopItem =
      some ("b", ⟨["c"]⟩) ∧
     (⟨["c"]⟩ : SingleThreadedQueue String).PopItem =
      some ("c", ⟨[]⟩)) ∧
    ((((((⟨[], false⟩ : OldSingleThreadedQueue String).Queue "a").Queue
        "b").Queue "c").PopItems) = ["c", "b", "a"]) ∧
    (["c", "b", "a"] ≠ ["a", "b", "c"]) := by
  refine ⟨⟨rfl, rfl, rfl⟩, ?_, by decide⟩
  show popItemsLoop ((((⟨[], false⟩ :
    OldSingleThreadedQueue String).Queue "a").Queue "b").Queue "c").deq =
    ["c", "b", "a"]
  rw [popItemsLoop_reverse]
  rfl

/-- C10: `SingleThreadedQueue.IsEmpty` returns `len(self._queue)` — the
number of items in the queue — so as a truth value it is falsy exactly
when the queue is empty and truthy (equal to the queue length) when it is
non-empty: it denotes the negation of "is empty". -/
theorem claim_C10_isempty_returns_length :
    ∀ (α : Type) (q : SingleThreadedQueue α),
      q.IsEmpty = q.len ∧ (q.IsEmpty = 0 ↔ q.deq = []) := by
  intro α q
  refine ⟨rfl, ?_⟩
  simp [SingleThreadedQueue.IsEmpty]

theorem parseEvent_state_eq (w : EventExtractionWorker) (e : EventObject)
    (fe : FileEntry) (pn : String) (ino : Option Int) :
    (w.ParseEvent e fe pn ino).1 =
      { w with
        storage_queue := w.storage_queue ++
          (if w.passesFilter (w.EnrichEvent e fe pn ino) then
            [w.EnrichEvent e fe pn ino] else []),
        counter_of_extracted_events := w.counter_of_extracted_events +
          (if w.passesFilter (w.EnrichEvent e fe pn ino) then 1 else 0) } := by
  unfold EventExtractionWorker.ParseEvent
  by_cases h : w.passesFilter (w.EnrichEvent e fe pn ino) <;> simp [h]

theorem acceptedEvents_sc (w : EventExtractionWorker)
    (s : List EventObject) (c : Nat) (fe : FileEntry) (pn : String)
    (ino : Option Int) (evts : List (Option EventObject)) :
    acceptedEvents
      { w with storage_queue := s, counter_of_extracted_events := c }
      fe pn ino evts = acceptedEvents w fe pn ino evts := rfl

theorem acceptedEvents_cwf (w : EventExtractionWorker) (f : String)
    (fe : FileEntry) (pn : String) (ino : Option Int)
    (evts : List (Option EventObject)) :
    acceptedEvents { w with current_working_file := f } fe pn ino evts =
      acceptedEvents w fe pn ino evts := rfl

theorem acceptedEvents_cons_none (w : EventExtractionWorker)
    (fe : FileEntry) (pn : String) (ino : Option Int)
    (evts : List (Option EventObject)) :
    acceptedEvents w fe pn ino (none :: evts) =
      acceptedEvents w fe pn ino evts := rfl

theorem acceptedEvents_cons_some (w : EventExtractionWorker)
    (e : EventObject) (fe : FileEntry) (pn : String) (ino : Option Int)
    (evts : List (Option EventObject)) :
    acceptedEvents w fe pn ino (some e :: evts) =
      (if w.passesFilter (w.EnrichEvent e fe pn ino) then
        [w.EnrichEvent e fe pn ino] else []) ++
        acceptedEvents w fe pn ino evts := by
  by_cases h : w.passesFilter (w.EnrichEvent e fe pn ino) <;>
    simp [acceptedEvents, List.filterMap_cons, h]

theorem foldl_eventStep_eq (fe : FileEntry) (pn : String)
    (ino : Option Int) (evts : List (Option EventObject)) :
    ∀ w : EventExtractionWorker,
      evts.foldl (eventStep fe pn ino) w =
        { w with
          storage_queue :=
            w.storage_queue ++ acceptedEvents w fe pn ino evts,
          counter_of_extracted_events := w.counter_of_extracted_events +
            (acceptedEvents w fe pn ino evts).length } := by
  induction evts with
  | nil =>
      intro w
      simp [acceptedEvents]
  | cons oe rest ih =>
      intro w
      rw [List.foldl_cons]
      cases oe with
      | none =>
          have hstep : eventStep fe pn ino w none = w := rfl
          rw [hstep, ih w, acceptedEvents_cons_none]
      | some e =>
          have hstep : eventStep fe pn ino w (some e) =
              (w.ParseEvent e fe pn ino).1 := rfl
          rw [hstep, parseEvent_state_eq, ih _, acceptedEvents_sc,
            acceptedEvents_cons_some]
          by_cases h : w.passesFilter (w.EnrichEvent e fe pn ino) <;>
            simp [h, Nat.add_assoc, Nat.add_comm]

theorem parsersAccepted_sc (w : EventExtractionWorker)
    (s : List EventObject) (c : Nat) (fe : FileEntry) (ino : Option Int)
    (ps : List ParserObject) :
    parsersAccepted
      { w with storage_queue := s, counter_of_extracted_events := c }
      fe ino ps = parsersAccepted w fe ino ps := rfl

theorem parsersAccepted_cwf (w : EventExtractionWorker) (f : String)
    (fe : FileEntry) (ino : Option Int) (ps : List ParserObject) :
    parsersAccepted { w with current_working_file := f } fe ino ps =
      parsersAccepted w fe ino ps := rfl

theorem parsersAccepted_scf (w : EventExtractionWorker) (f : String)
    (s : List EventObject) (c : Nat) (fe : FileEntry) (ino : Option Int)
    (ps : List ParserObject) :
    parsersAccepted
      { w with
        current_working_file := f,
        storage_queue := s,
        counter_of_extracted_events := c } fe ino ps =
      parsersAccepted w fe ino ps := rfl

theorem parsersAccepted_cons (w : EventExtractionWorker) (fe : FileEntry)
    (ino : Option Int) (p : ParserObject) (ps : List ParserObject) :
    parsersAccepted w fe ino (p :: ps) =
      acceptedEvents w fe p.parser_name ino (p.ParseYields fe) ++
        parsersAccepted w fe ino ps := by
  simp [parsersAccepted]

theorem foldl_parserStep_eq (fe : FileEntry) (ino : Option Int)
    (ps : List ParserObject) :
    ∀ (w : EventExtractionWorker) (logs : List LogRecord),
      ps.foldl (parserStep fe ino) (w, logs) =
        ({ w with
            storage_queue :=
              w.storage_queue ++ parsersAccepted w fe ino ps,
            counter_of_extracted_events :=
              w.counter_of_extracted_events +
                (parsersAccepted w fe ino ps).length },
         logs ++ (ps.map (parserLogs fe)).flatten) := by
  induction ps with
  | nil =>
      intro w logs
      simp [parsersAccepted]
  | cons p rest ih =>
      intro w logs
      rw [List.foldl_cons]
      have hstep : parserStep fe ino (w, logs) p =
          ((p.ParseYields fe).foldl (eventStep fe p.parser_name ino) w,
            logs ++ parserLogs fe p) := rfl
      rw [hstep, foldl_eventStep_eq, ih _, parsersAccepted_sc,
        parsersAccepted_cons]
      simp [Nat.add_assoc, List.append_assoc]

theorem parseFile_state_eq (w : EventExtractionWorker)
    (ps : List ParserObject) (fe : FileEntry) :
    w.ParseFile ps fe =
      ({ w with
          current_working_file := workingFileOf fe,
          storage_queue :=
            w.storage_queue ++ parsersAccepted w fe fe.GetStat ps,
          counter_of_extracted_events :=
            w.counter_of_extracted_events +
              (parsersAccepted w fe fe.GetStat ps).length },
       (ps.map (parserLogs fe)).flatten) := by
  unfold EventExtractionWorker.ParseFile
  rw [foldl_parserStep_eq]
  have hinv : parsersAccepted
      { w with current_working_file := workingFileOf fe } fe fe.GetStat ps =
      parsersAccepted w fe fe.GetStat ps := parsersAccepted_cwf w _ fe _ ps
  simp only [workingFileOf] at hinv ⊢
  rw [hinv]
  simp

/-- C2: every parser is run against the file regardless of exceptions in
other parsers — the storage queue receives exactly the concatenation of
every parser's accepted events, and the log stream is the concatenation
of every parser's log records; a parser raising an arbitrary exception
contributes a warning record carrying its name and the file's path; a
parser raising the format-mismatch signal `UnableToParseFile` contributes
debug records only (never a warning); and the worker goes on to process
every subsequent file the same way. -/
theorem claim_C2_parser_fault_isolation :
    ∀ (w : EventExtractionWorker) (parsers : List ParserObject)
      (fe : FileEntry) (files : List FileEntry),
      ((w.ParseFile parsers fe).1.storage_queue =
        w.storage_queue ++ parsersAccepted w fe fe.GetStat parsers) ∧
      ((w.ParseFile parsers fe).2 =
        (parsers.map (parserLogs fe)).flatten) ∧
      (∀ p ∈ parsers, p.ParseRaises fe = some ParserExn.otherException →
        LogRecord.mk LogLevel.warning (some p.parser_name)
          (some fe.path_spec.comparable) ∈ (w.ParseFile parsers fe).2) ∧
      (∀ p ∈ parsers,
        p.ParseRaises fe = some ParserExn.unableToParseFile →
        ∀ r ∈ parserLogs fe p, r.level = LogLevel.debug) ∧
      ((w.ProcessFiles parsers files).1.storage_queue =
        w.storage_queue ++ (files.map fun f =>
          parsersAccepted w f f.GetStat parsers).flatten) := by
  intro w parsers fe files
  refine ⟨?_, ?_, ?_, ?_, ?_⟩
  · rw [parseFile_state_eq]
  · rw [parseFile_state_eq]
  · intro p hp hraise
    rw [parseFile_state_eq]
    simp only [List.mem_flatten, List.mem_map]
    refine ⟨parserLogs fe p, ⟨p, hp, rfl⟩, ?_⟩
    simp [parserLogs, hraise]
  · intro p _ hraise r hr
    simp only [parserLogs, hraise, List.mem_cons, List.mem_singleton,
      List.not_mem_nil, or_false] at hr
    rcases hr with h | h <;> simp [h]
  · have main : ∀ (fs : List FileEntry) (w0 : EventExtractionWorker)
        (logs : List LogRecord),
        (fs.foldl (fun acc file_entry =>
          let r := EventExtractionWorker.ParseFile acc.1 parsers file_entry
          (r.1, acc.2 ++ r.2)) (w0, logs)).1.storage_queue =
          w0.storage_queue ++ (fs.map fun f =>
            parsersAccepted w0 f f.GetStat parsers).flatten := by
      intro fs
      induction fs with
      | nil => intro w0 logs; simp
      | cons f rest ih =>
          intro w0 logs
          rw [List.foldl_cons]
          show (List.foldl (fun acc file_entry =>
              let r := EventExtractionWorker.ParseFile acc.1 parsers
                file_entry
              (r.1, acc.2 ++ r.2))
              ((EventExtractionWorker.ParseFile w0 parsers f).1,
                logs ++ (EventExtractionWorker.ParseFile w0 parsers f).2)
              rest).1.storage_queue = _
          rw [parseFile_state_eq]
          dsimp only
          rw [ih _ _]
          simp only [parsersAccepted_scf]
          simp [List.append_assoc]
    show (files.foldl (fun acc file_entry =>
      let r := EventExtractionWorker.ParseFile acc.1 parsers file_entry
      (r.1, acc.2 ++ r.2)) (w, [])).1.storage_queue =
      w.storage_queue ++ (files.map fun f =>
        parsersAccepted w f f.GetStat parsers).flatten
    exact main files w []

/-- C2 witness: in a concrete run with a crashing plugin, a
format-mismatch plugin and a working plugin, the crashing plugin's
warning record (carrying its name and the file's path) is in the log, the
mismatch plugin's records are all debug, and the storage queue still
receives the working plugin's event. -/
theorem claim_C2_witness :
    (LogRecord.mk LogLevel.warning (some "bugplugin")
        (some "type: TSK, location: /a.log") ∈
      (cWorkerNoFilter.ParseFile [cParserBug, cParserMismatch, cParserOk]
        cFile).2) ∧
    ((LogRecord.mk LogLevel.debug (some "sqlite") (some "a.log")).level =
      LogLevel.debug) ∧
    ((cWorkerNoFilter.ParseFile [cParserBug, cParserMismatch, cParserOk]
        cFile).1.storage_queue =
      cWorkerNoFilter.storage_queue ++ parsersAccepted cWorkerNoFilter
        cFile cFile.GetStat [cParserBug, cParserMismatch, cParserOk]) :=
  ⟨(claim_C2_parser_fault_isolation cWorkerNoFilter
      [cParserBug, cParserMismatch, cParserOk] cFile []).2.2.1 cParserBug
      (List.mem_cons_self _ _) rfl,
   (claim_C2_parser_fault_isolation cWorkerNoFilter
      [cParserBug, cParserMismatch, cParserOk] cFile []).2.2.2.1
      cParserMismatch (by simp [cParserMismatch]) rfl
      (LogRecord.mk LogLevel.debug (some "sqlite") (some "a.log"))
      (by decide),
   (claim_C2_parser_fault_isolation cWorkerNoFilter
      [cParserBug, cParserMismatch, cParserOk] cFile []).1⟩

/-- C3 counterexample: with a configured filter whose `Matches` returns
true on the enriched event, `_ParseEvent` pushes the event onto the
storage queue — it is not dropped, refuting the claim that a `Matches`
hit is an exclusion. -/
theorem claim_C3_counterexample :
    cWorkerFilter.filter_object = some filterAlwaysTrue ∧
    filterAlwaysTrue
      (cWorkerFilter.EnrichEvent cEvent cFile "syslog" none) = true ∧
    (cWorkerFilter.ParseEvent cEvent cFile "syslog" none).1.storage_queue =
      [cWorkerFilter.EnrichEvent cEvent cFile "syslog" none] ∧
    (cWorkerFilter.ParseEvent cEvent cFile "syslog" none).1.storage_queue ≠
      cWorkerFilter.storage_queue := by
  refine ⟨rfl, rfl, rfl, ?_⟩
  have h : (cWorkerFilter.ParseEvent cEvent cFile "syslog"
      none).1.storage_queue =
      [cWorkerFilter.EnrichEvent cEvent cFile "syslog" none] := rfl
  rw [h]
  simp [cWorkerFilter]

/-- C3 (amended): `_ParseEvent` treats the filter as an inclusion
predicate — with no filter configured every enriched event is pushed to
the storage queue and the counter incremented; with a filter configured
the event is pushed (and the counter incremented) exactly when `Matches`
returns true, and dropped (state unchanged) when `Matches` returns
false. -/
theorem claim_C3_filter_inclusion :
    ∀ (w : EventExtractionWorker) (e : EventObject) (fe : FileEntry)
      (pn : String) (ino : Option Int),
      (w.filter_object = none →
        (w.ParseEvent e fe pn ino).1.storage_queue =
          w.storage_queue ++ [w.EnrichEvent e fe pn ino] ∧
        (w.ParseEvent e fe pn ino).1.counter_of_extracted_events =
          w.counter_of_extracted_events + 1) ∧
      (∀ Matches, w.filter_object = some Matches →
        (Matches (w.EnrichEvent e fe pn ino) = true →
          (w.ParseEvent e fe pn ino).1.storage_queue =
            w.storage_queue ++ [w.EnrichEvent e fe pn ino] ∧
          (w.ParseEvent e fe pn ino).1.counter_of_extracted_events =
            w.counter_of_extracted_events + 1) ∧
        (Matches (w.EnrichEvent e fe pn ino) = false →
          (w.ParseEvent e fe pn ino).1 = w)) := by
  intro w e fe pn ino
  refine ⟨?_, ?_⟩
  · intro hnone
    have hp : w.passesFilter (w.EnrichEvent e fe pn ino) = true := by
      simp [EventExtractionWorker.passesFilter, hnone]
    rw [parseEvent_state_eq]
    simp [hp]
  · intro Matches hsome
    have hp : w.passesFilter (w.EnrichEvent e fe pn ino) =
        Matches (w.EnrichEvent e fe pn ino) := by
      simp [EventExtractionWorker.passesFilter, hsome]
    constructor
    · intro ht
      rw [parseEvent_state_eq]
      simp [hp, ht]
    · intro hf
      rw [parseEvent_state_eq]
      simp [hp, hf]

/-- C3 witness: with no filter the concrete event is pushed and counted;
with an all-true filter it is counted; with an all-false filter the
worker state is unchanged. -/
theorem claim_C3_witness :
    ((cWorkerNoFilter.ParseEvent cEvent cFile "syslog"
        none).1.storage_queue =
      cWorkerNoFilter.storage_queue ++
        [cWorkerNoFilter.EnrichEvent cEvent cFile "syslog" none]) ∧
    ((cWorkerFilter.ParseEvent cEvent cFile "syslog"
        none).1.counter_of_extracted_events =
      cWorkerFilter.counter_of_extracted_events + 1) ∧
    ((cWorkerFilterF.ParseEvent cEvent cFile "syslog" none).1 =
      cWorkerFilterF) :=
  ⟨((claim_C3_filter_inclusion cWorkerNoFilter cEvent cFile "syslog"
      none).1 rfl).1,
   (((claim_C3_filter_inclusion cWorkerFilter cEvent cFile "syslog"
      none).2 filterAlwaysTrue rfl).1 rfl).2,
   ((claim_C3_filter_inclusion cWorkerFilterF cEvent cFile "syslog"
      none).2 filterAlwaysFalse rfl).2 rfl⟩

theorem enrich_hostname (w : EventExtractionWorker) (e : EventObject)
    (fe : FileEntry) (pn : String) (ino : Option Int) :
    (w.EnrichEvent e fe pn ino).hostname =
      match w.pre_obj_hostname with
      | some hostname => some hostname
      | none => e.hostname := rfl

/-- C6 counterexample: the enrichment step overwrites a hostname the
plugin already set whenever the preprocess object has one — the code
checks `hasattr(self._pre_obj, 'hostname')`, not whether the event
already carries a hostname. -/
theorem claim_C6_counterexample :
    cEventHost.hostname = some "plugin-host" ∧
    cWorkerHost.pre_obj_hostname = some "kb-host" ∧
    (cWorkerHost.EnrichEvent cEventHost cFile "syslog" none).hostname =
      some "kb-host" ∧
    (cWorkerHost.EnrichEvent cEventHost cFile "syslog" none).hostname ≠
      cEventHost.hostname := by
  refine ⟨rfl, rfl, rfl, by decide⟩

/-- C6 (amended): `_ParseEvent` sets the event's hostname from the
preprocess object whenever the preprocess object has a hostname,
overwriting any hostname a plugin already assigned; only when the
preprocess object has no hostname is the plugin's value left
unchanged. -/
theorem claim_C6_hostname_overwrite :
    ∀ (w : EventExtractionWorker) (e : EventObject) (fe : FileEntry)
      (pn : String) (ino : Option Int),
      (∀ hostname, w.pre_obj_hostname = some hostname →
        (w.EnrichEvent e fe pn ino).hostname = some hostname) ∧
      (w.pre_obj_hostname = none →
        (w.EnrichEvent e fe pn ino).hostname = e.hostname) := by
  intro w e fe pn ino
  constructor
  · intro hostname hh
    rw [enrich_hostname, hh]
  · intro hh
    rw [enrich_hostname, hh]

/-- C6 witness: the knowledge-base hostname wins when present; the
plugin's hostname survives when the preprocess object has none. -/
theorem claim_C6_witness :
    ((cWorkerHost.EnrichEvent cEvent cFile "syslog" none).hostname =
      some "kb-host") ∧
    ((cWorkerNoFilter.EnrichEvent cEventHost cFile "syslog"
        none).hostname = some "plugin-host") :=
  ⟨(claim_C6_hostname_overwrite cWorkerHost cEvent cFile "syslog"
      none).1 "kb-host" rfl,
   (claim_C6_hostname_overwrite cWorkerNoFilter cEventHost cFile "syslog"
      none).2 rfl⟩

theorem list_sum_le_length_mul (l : List Nat) (c : Nat)
    (h : ∀ x ∈ l, x ≤ c) : l.sum ≤ l.length * c := by
  induction l with
  | nil => simp
  | cons x xs ih =>
      have hx : x ≤ c := h x (by simp)
      have hxs : xs.sum ≤ xs.length * c :=
        ih (fun y hy => h y (by simp [hy]))
      simp only [List.sum_cons, List.length_cons, Nat.succ_mul]
      omega

theorem smartOpenFiles_length_le {α β : Type} (sof : α → List β)
    (ope : β → Option α) (branching : Nat)
    (hb : ∀ x, (sof x).length ≤ branching) :
    ∀ (n : Nat) (fe : α) (depth : Nat), MAX_FILE_DEPTH - depth = n →
      (SmartOpenFiles sof ope fe depth).length ≤
        expansionBound branching n := by
  intro n
  induction n with
  | zero =>
      intro fe depth hd
      have hge : MAX_FILE_DEPTH ≤ depth := by omega
      simp [SmartOpenFiles, hge, expansionBound]
  | succ n ih =>
      intro fe depth hd
      have hnot : ¬ MAX_FILE_DEPTH ≤ depth := by omega
      rw [SmartOpenFiles]
      simp only [hnot, dite_false]
      rw [List.length_flatten, List.map_map]
      refine le_trans
        (list_sum_le_length_mul _ (1 + expansionBound branching n) ?_) ?_
      · intro x hx
        simp only [List.mem_map] at hx
        obtain ⟨p, _, hp⟩ := hx
        subst hp
        simp only [Function.comp_apply]
        cases hope : ope p with
        | none => simp
        | some nfe =>
            simp only [List.length_cons]
            have := ih nfe (depth + 1) (by omega)
            omega
      · rw [List.length_map]
        calc (sof fe).length * (1 + expansionBound branching n)
            ≤ branching * (1 + expansionBound branching n) :=
              Nat.mul_le_mul_right _ (hb fe)
          _ = expansionBound branching (n + 1) := rfl

/-- C5: the nested-content expansion yields nothing once the depth
counter reaches `MAX_FILE_DEPTH` (3), and on every input — including a
self-referential or arbitrarily deep nesting — the expansion is a total
function whose output size is bounded purely by the branching factor and
the remaining depth budget, because the depth counter strictly increases
on each recursive call. -/
theorem claim_C5_depth_bound :
    (∀ (α β : Type) (SmartOpenFile : α → List β)
       (OpenPFileEntry : β → Option α) (file_entry : α) (depth : Nat),
       MAX_FILE_DEPTH ≤ depth →
         SmartOpenFiles SmartOpenFile OpenPFileEntry file_entry depth =
           []) ∧
    (∀ (α β : Type) (SmartOpenFile : α → List β)
       (OpenPFileEntry : β → Option α) (branching : Nat),
       (∀ x, (SmartOpenFile x).length ≤ branching) →
       ∀ (file_entry : α) (depth : Nat),
         (SmartOpenFiles SmartOpenFile OpenPFileEntry file_entry
           depth).length ≤
           expansionBound branching (MAX_FILE_DEPTH - depth)) := by
  constructor
  · intro α β sof ope fe depth h
    simp [SmartOpenFiles, h]
  · intro α β sof ope branching hb fe depth
    exact smartOpenFiles_length_le sof ope branching hb _ fe depth rfl

/-- C5 witness: a self-referential expansion (every file entry yields
itself as its sole nested path specification) yields nothing at the
maximum depth and at depth 0 yields at most
`expansionBound 1 3 = 3` entries — it terminates despite the cycle. -/
theorem claim_C5_witness :
    (SmartOpenFiles (fun _ : Nat => [0]) (fun n : Nat => some n) 0
      MAX_FILE_DEPTH = []) ∧
    ((SmartOpenFiles (fun _ : Nat => [0]) (fun n : Nat => some n) 0
      0).length ≤ expansionBound 1 (MAX_FILE_DEPTH - 0)) :=
  ⟨claim_C5_depth_bound.1 Nat Nat _ _ 0 MAX_FILE_DEPTH (le_refl _),
   claim_C5_depth_bound.2 Nat Nat _ _ 1 (fun _ => by simp) 0 0⟩

theorem processVSSLoop_all_ok (store : Int → StoreResult) :
    ∀ range : List Int, (∀ i ∈ range, (store i).isOk = true) →
      (ProcessVSSLoop store range).walked = range ∧
      (ProcessVSSLoop store range).displayed =
        range.map (fun i => i + 1) ∧
      (ProcessVSSLoop store range).exit = VssExit.completed := by
  intro range
  induction range with
  | nil => intro _; simp [ProcessVSSLoop]
  | cons i rest ih =>
      intro h
      have hi := h i (by simp)
      have hrest := ih (fun j hj => h j (by simp [hj]))
      cases hs : store i with
      | openFail => rw [hs] at hi; simp [StoreResult.isOk] at hi
      | walkFail => rw [hs] at hi; simp [StoreResult.isOk] at hi
      | ok items =>
          obtain ⟨h1, h2, h3⟩ := hrest
          simp [ProcessVSSLoop, hs, h1, h2, h3]

/-- C7 counterexample: in a VSS collection over stores `[0, 1]` where the
walk of store 0 fails and store 1 would succeed (producing path spec 42),
the loop returns after store 0 — store 1 is never walked and nothing is
produced — refuting "every remaining snapshot store is still
collected". -/
theorem claim_C7_counterexample :
    (cStoreFail 1 = StoreResult.ok [42]) ∧
    (ProcessVSSLoop cStoreFail [1] =
      ⟨[1], [2], [42], VssExit.completed⟩) ∧
    (ProcessVSSLoop cStoreFail [0, 1] =
      ⟨[0], [1], [], VssExit.abandoned⟩) ∧
    ((ProcessVSSLoop cStoreFail [0, 1]).produced = []) := by
  refine ⟨by decide, by decide, by decide, by decide⟩

/-- C7 (amended): a failure to walk one sub-directory is logged and only
that branch is abandoned — the remaining sibling directories contribute
exactly what they would otherwise; but a failure to walk one snapshot
store abandons that store AND every remaining store (the loop returns),
while the enclosing collection still completes and signals end-of-input
because the exception is caught; an (uncaught) failure to OPEN a
snapshot store's file system propagates and end-of-input is not
signalled. -/
theorem claim_C7_branch_isolation :
    (∀ (allocated isLink : Bool) (subs rest : List FSEntry),
      allocated && !isLink = true →
      ProcessSubDirectories (FSEntry.dir allocated isLink true subs ::
          rest) =
        ((ProcessSubDirectories rest).1,
          (ProcessSubDirectories rest).2 + 1)) ∧
    (∀ (store : Int → StoreResult) (i : Int) (rest : List Int),
      store i = StoreResult.walkFail →
        ProcessVSSLoop store (i :: rest) =
          ⟨[i], [i + 1], [], VssExit.abandoned⟩) ∧
    (∀ (store : Int → StoreResult) (vss_stores : Option (List Int))
      (n : Nat),
      (ProcessVSS store vss_stores n).exit ≠ VssExit.raised →
        (CollectImageVss store vss_stores n).2 = true) ∧
    (∀ (store : Int → StoreResult) (vss_stores : Option (List Int))
      (n : Nat),
      (ProcessVSS store vss_stores n).exit = VssExit.raised →
        (CollectImageVss store vss_stores n).2 = false) := by
  refine ⟨?_, ?_, ?_, ?_⟩
  · intro allocated isLink subs rest hq
    cases allocated <;> cases isLink <;>
      simp_all [ProcessSubDirectories, ProcessDirectory, Nat.add_comm]
  · intro store i rest hs
    simp [ProcessVSSLoop, hs]
  · intro store vss_stores n hx
    unfold CollectImageVss
    cases he : (ProcessVSS store vss_stores n).exit with
    | raised => exact absurd he hx
    | completed => simp [he]
    | abandoned => simp [he]
  · intro store vss_stores n hx
    unfold CollectImageVss
    simp [hx]

/-- C7 witness: a failing directory next to a healthy sibling — the
sibling's file is still produced and one warning is logged; a failing
store 0 abandons the rest; a successful VSS run and a raising VSS run
respectively do and do not reach the end-of-input signal. -/
theorem claim_C7_witness :
    (ProcessSubDirectories [cDirFail, cDirGood] =
      ((ProcessSubDirectories [cDirGood]).1,
        (ProcessSubDirectories [cDirGood]).2 + 1)) ∧
    (ProcessVSSLoop cStoreFail (0 :: [1]) =
      ⟨[0], [0 + 1], [], VssExit.abandoned⟩) ∧
    ((CollectImageVss cStoreOk (some [1, 2]) 3).2 = true) ∧
    ((CollectImageVss (fun _ => StoreResult.openFail) none 1).2 =
      false) :=
  ⟨claim_C7_branch_isolation.1 true false
      [FSEntry.file 3 true false] [cDirGood] (by decide),
   claim_C7_branch_isolation.2.1 cStoreFail 0 [1] (by decide),
   claim_C7_branch_isolation.2.2.1 cStoreOk (some [1, 2]) 3 (by decide),
   claim_C7_branch_isolation.2.2.2 (fun _ => StoreResult.openFail) none 1
      (by decide)⟩

/-- C8: with a supplied (non-empty, externally 1-based) store list the
collector walks exactly the stores at internal 0-based index
`supplied - 1`, one walk per requested index and in request order; with
no list it walks internal indices `0 .. number_of_vss - 1`; and the log
lines display `internal + 1`, so a caller supplying 1-based indices sees
exactly its own indices echoed back — neither convention leaks. -/
theorem claim_C8_vss_store_indexing :
    (∀ (store_nr : Int) (rest : List Int) (n : Nat),
      vssStoreRange (some (store_nr :: rest)) n =
        (store_nr :: rest).map (fun s => s - 1)) ∧
    (∀ n : Nat, vssStoreRange none n = (List.range n).map Int.ofNat) ∧
    (∀ (store : Int → StoreResult) (range : List Int),
      (∀ i ∈ range, (store i).isOk = true) →
      (ProcessVSSLoop store range).walked = range ∧
      (ProcessVSSLoop store range).displayed =
        range.map (fun i => i + 1) ∧
      (ProcessVSSLoop store range).exit = VssExit.completed) ∧
    (∀ (store : Int → StoreResult) (store_nr : Int) (rest : List Int)
      (n : Nat),
      (∀ i ∈ vssStoreRange (some (store_nr :: rest)) n,
        (store i).isOk = true) →
      (ProcessVSS store (some (store_nr :: rest)) n).walked =
        (store_nr :: rest).map (fun s => s - 1) ∧
      (ProcessVSS store (some (store_nr :: rest)) n).displayed =
        store_nr :: rest) := by
  refine ⟨fun _ _ _ => rfl, fun _ => rfl, processVSSLoop_all_ok, ?_⟩
  intro store store_nr rest n hok
  have h := processVSSLoop_all_ok store
    (vssStoreRange (some (store_nr :: rest)) n) hok
  refine ⟨h.1, ?_⟩
  show (ProcessVSSLoop store
    (vssStoreRange (some (store_nr :: rest)) n)).displayed = _
  rw [h.2.1]
  show ((store_nr :: rest).map (fun s => s - 1)).map (fun i => i + 1) = _
  rw [List.map_map]
  have : ((fun i : Int => i + 1) ∘ fun s : Int => s - 1) = id := by
    funext s
    simp
  rw [this, List.map_id]

/-- C8 witness: requesting stores `[2, 3]` walks internal indices
`[1, 2]` and the log lines display `[2, 3]`; an all-successful loop walks
its whole range. -/
theorem claim_C8_witness :
    (vssStoreRange (some [2, 3]) 5 =
      [2, 3].map (fun s : Int => s - 1)) ∧
    ((ProcessVSSLoop cStoreOk [1, 2]).walked = [1, 2]) ∧
    ((ProcessVSS cStoreOk (some [2, 3]) 5).walked =
      [2, 3].map (fun s : Int => s - 1)) ∧
    ((ProcessVSS cStoreOk (some [2, 3]) 5).displayed = [2, 3]) :=
  ⟨claim_C8_vss_store_indexing.1 2 [3] 5,
   (claim_C8_vss_store_indexing.2.2.1 cStoreOk [1, 2] (by decide)).1,
   (claim_C8_vss_store_indexing.2.2.2 cStoreOk 2 [3] 5 (by decide)).1,
   (claim_C8_vss_store_indexing.2.2.2 cStoreOk 2 [3] 5 (by decide)).2⟩

theorem runPluginGroup_unset (attr_name : String) :
    ∀ (plugins : List PreprocessPlugin) (kb : KnowledgeBase)
      (warnings : List (String × String)),
      KnowledgeBase.GetValue kb attr_name = none →
      (∀ p ∈ plugins, p.ATTRIBUTE = attr_name →
        ∀ kb2, ∃ e, p.GetValue kb2 = Except.error e) →
      KnowledgeBase.GetValue (runPluginGroup kb warnings plugins).1
        attr_name = none := by
  intro plugins
  induction plugins with
  | nil => intro kb warnings hnone _; exact hnone
  | cons p rest ih =>
      intro kb warnings hnone hfail
      cases hg : p.GetValue kb with
      | error e =>
          have hr : p.Run kb = Except.error e := by
            simp [PreprocessPlugin.Run, hg]
          simp only [runPluginGroup, hr]
          exact ih kb _ hnone (fun q hq => hfail q (by simp [hq]))
      | ok value =>
          have hr : p.Run kb =
              Except.ok (kb.SetValue p.ATTRIBUTE value) := by
            simp [PreprocessPlugin.Run, hg]
          have hne : ¬ attr_name = p.ATTRIBUTE := by
            intro heq
            obtain ⟨e, he⟩ := hfail p (by simp) heq.symm kb
            rw [hg] at he
            exact Except.noConfusion he
          simp only [runPluginGroup, hr]
          have hnone2 : KnowledgeBase.GetValue
              (kb.SetValue p.ATTRIBUTE value) attr_name = none := by
            simp [KnowledgeBase.SetValue, KnowledgeBase.GetValue, hne,
              hnone]
          exact ih _ _ hnone2 (fun q hq => hfail q (by simp [hq]))

theorem preprocessLoop_unset (attr_name : String) :
    ∀ (groups : List (List PreprocessPlugin)) (kb : KnowledgeBase)
      (warnings : List (String × String)),
      KnowledgeBase.GetValue kb attr_name = none →
      (∀ p ∈ groups.flatten, p.ATTRIBUTE = attr_name →
        ∀ kb2, ∃ e, p.GetValue kb2 = Except.error e) →
      KnowledgeBase.GetValue
        (PreprocessSourceLoop kb warnings groups).1 attr_name = none := by
  intro groups
  induction groups with
  | nil => intro kb warnings hnone _; exact hnone
  | cons group rest ih =>
      intro kb warnings hnone hfail
      simp only [PreprocessSourceLoop]
      refine ih _ _ ?_ ?_
      · exact runPluginGroup_unset attr_name group kb warnings hnone
          (fun p hp => hfail p (by simp [hp]))
      · intro p hp
        exact hfail p (by simp [List.mem_flatten] at hp ⊢; right; exact hp)

/-- C9: a preprocess plugin whose execution raises `PreProcessFail` or an
I/O error is only logged — `Run` writes the declared attribute strictly
after `GetValue` succeeds, so a failing plugin leaves its attribute
unset; the loop continues with every remaining plugin of every weight
class, on the unchanged knowledge base; a plugin failure is never fatal
to the run. -/
theorem claim_C9_preprocess_failure_nonfatal :
    (∀ (p : PreprocessPlugin) (kb : KnowledgeBase) (e : PreErr),
      p.GetValue kb = Except.error e → p.Run kb = Except.error e) ∧
    (∀ (p : PreprocessPlugin) (kb : KnowledgeBase) (value : String),
      p.GetValue kb = Except.ok value →
        p.Run kb = Except.ok (kb.SetValue p.ATTRIBUTE value)) ∧
    (∀ (kb : KnowledgeBase) (warnings : List (String × String))
      (p : PreprocessPlugin) (rest : List PreprocessPlugin) (e : PreErr),
      p.Run kb = Except.error e →
      runPluginGroup kb warnings (p :: rest) =
        runPluginGroup kb
          (warnings ++ [(p.plugin_name, p.ATTRIBUTE)]) rest) ∧
    (∀ (groups : List (List PreprocessPlugin)) (kb : KnowledgeBase)
      (attr_name : String),
      KnowledgeBase.GetValue kb attr_name = none →
      (∀ p ∈ groups.flatten, p.ATTRIBUTE = attr_name →
        ∀ kb2, ∃ e, p.GetValue kb2 = Except.error e) →
      KnowledgeBase.GetValue (PreprocessSource kb groups).1 attr_name =
        none) := by
  refine ⟨?_, ?_, ?_, ?_⟩
  · intro p kb e h
    simp [PreprocessPlugin.Run, h]
  · intro p kb value h
    simp [PreprocessPlugin.Run, h]
  · intro kb warnings p rest e h
    simp [runPluginGroup, h]
  · intro groups kb attr_name hnone hfail
    exact preprocessLoop_unset attr_name groups kb [] hnone hfail

/-- C9 witness: a concrete run with one raising and one healthy plugin —
the raising plugin yields the logged warning and continues, and after
the whole run its attribute is still unset. -/
theorem claim_C9_witness :
    (cPluginFail.Run [] = Except.error PreErr.preProcessFail) ∧
    (cPluginOk.Run [] =
      Except.ok (KnowledgeBase.SetValue [] cPluginOk.ATTRIBUTE
        "ACME-PC")) ∧
    (runPluginGroup [] [] [cPluginFail, cPluginOk] =
      runPluginGroup [] [("WinVersion", "osversion")] [cPluginOk]) ∧
    (KnowledgeBase.GetValue
      (PreprocessSource [] [[cPluginFail, cPluginOk]]).1 "osversion" =
      none) :=
  ⟨claim_C9_preprocess_failure_nonfatal.1 cPluginFail [] _ rfl,
   claim_C9_preprocess_failure_nonfatal.2.1 cPluginOk [] "ACME-PC" rfl,
   claim_C9_preprocess_failure_nonfatal.2.2.1 [] [] cPluginFail
     [cPluginOk] PreErr.preProcessFail rfl,
   claim_C9_preprocess_failure_nonfatal.2.2.2 [[cPluginFail, cPluginOk]]
     [] "osversion" rfl (by
      intro p hp hattr kb2
      simp only [List.flatten, List.append_nil, List.mem_cons,
        List.not_mem_nil, or_false] at hp
      rcases hp with rfl | rfl
      · exact ⟨PreErr.preProcessFail, rfl⟩
      · exact absurd hattr (by decide))⟩

end Plaso
